import Mathlib

/-!
Verification of the `reggie` regular-expression AST library.

The development shallowly embeds the Rust sources under `src/`:
quantifiers (`components/quantifiers.rs` and the legacy `components.rs`),
flags (`components/flags.rs`), character sets (`components/char_set.rs`),
the AST (`components/pattern.rs`, `components/groups.rs`,
`components/quantified.rs`, `components/alternatives.rs`,
`components/element.rs`) and group indexing (`components/group_indices.rs`).

The external `disjoint_ranges` crate (`DisjointRange`, `UnaryRange`) and the
pest grammar are not part of `src/`; where a claim depends on them they are
modelled from the specification and marked as such in their doc comments.
-/

namespace Reggie

/-- Rust `char::len_utf8`: the number of bytes of the UTF-8 encoding of a
character.  `String::len` in Rust is the sum of these over the characters. -/
def charUtf8Size (c : Char) : Nat :=
  if c.toNat < 0x80 then 1
  else if c.toNat < 0x800 then 2
  else if c.toNat < 0x10000 then 3
  else 4

/-- Rust `String::len`: the UTF-8 byte length of the string. -/
def rustStrLen (s : String) : Nat :=
  s.data.foldl (fun n c => n + charUtf8Size c) 0

/-- Number of characters of a Rust string (`s.chars().count()`). -/
def rustCharCount (s : String) : Nat := s.data.length

/-- Error type from `src/error.rs` (`ReggieError`), with the payloads the
embedded code paths use. -/
inductive ReggieError where
  | unexpectedInput (input : String) (charIx : Nat)
  | unexpectedEndOfInput (charIx : Nat)
  | invalidFlag (badFlag : Char)
  | invalidLiteral (badLiteral : String)
  | invalidRanges (badRanges : List (Char × Char))
  | invalidCharClass (badCClass : String)
  | negativePatternFlags
deriving DecidableEq, Repr

/-- Flag enumeration from `src/src/components/flags.rs`. -/
inductive Flag where
  | ascii
  | ignorecase
  | locale
  | multiline
  | dotall
  | unicode
  | verbose
deriving DecidableEq, Repr

namespace Flag

/-- The `impl Ord for Flag` in `src/src/components/flags.rs` lines 111-131,
translated arm by arm in Rust match-arm order: `(Ascii, Ascii) => Equal`,
`(Ascii, _) => Greater`, `(Ignorecase, Ignorecase) => Equal`,
`(Ignorecase, _) => Greater`, and every remaining arm returns `Equal`. -/
def cmp : Flag → Flag → Ordering
  | .ascii, .ascii => .eq
  | .ascii, _ => .gt
  | .ignorecase, .ignorecase => .eq
  | .ignorecase, _ => .gt
  | .locale, _ => .eq
  | .multiline, _ => .eq
  | .dotall, _ => .eq
  | .unicode, _ => .eq
  | .verbose, _ => .eq

/-- `Flag::as_str` from `src/src/components/flags.rs`. -/
def asStr : Flag → String
  | .ascii => "a"
  | .ignorecase => "i"
  | .locale => "L"
  | .multiline => "m"
  | .dotall => "s"
  | .unicode => "u"
  | .verbose => "x"

/-- `Flag::from_char` from `src/src/components/flags.rs`. -/
def fromChar : Char → Except ReggieError Flag
  | 'a' => .ok .ascii
  | 'i' => .ok .ignorecase
  | 'L' => .ok .locale
  | 'm' => .ok .multiline
  | 's' => .ok .dotall
  | 'u' => .ok .unicode
  | 'x' => .ok .verbose
  | c => .error (.invalidFlag c)

end Flag

/-- Insertion into a `BTreeSet<Flag>` driven by the `Ord` impl above: the
element is placed before the first member it compares `Less` to, is dropped
when it compares `Equal` to a member, and moves past members it compares
`Greater` to.  For the set sizes exercised here (at most two members before
insertion, a single B-tree node) this coincides exactly with
`BTreeSet::insert`'s search-and-insert behaviour. -/
def btreeInsert (x : Flag) : List Flag → List Flag
  | [] => [x]
  | y :: rest =>
    match Flag.cmp x y with
    | .lt => x :: y :: rest
    | .eq => y :: rest
    | .gt => y :: btreeInsert x rest

/-- `Flags` from `src/src/components/flags.rs`: a `BTreeSet<Flag>`, modelled
as the list of members in the order the `Ord`-driven insertion maintains. -/
abbrev Flags := List Flag

namespace Flags

/-- `Flags::new` / `Flags::empty`. -/
def empty : Flags := []

/-- `Flags::add` (a `BTreeSet::insert`). -/
def add (fs : Flags) (f : Flag) : Flags := btreeInsert f fs

/-- `Flags::as_string` from `src/src/components/flags.rs` lines 22-28:
a leading `?` followed by each member's code in set iteration order. -/
def asString (fs : Flags) : String :=
  (fs : List Flag).foldl (fun s f => s ++ f.asStr) "?"

/-- `Flags::is_empty`. -/
def isEmpty (fs : Flags) : Bool := List.isEmpty fs

/-- The flag-character loop of `Flags::from_whole_pattern_pair`
(`src/src/components/flags.rs` lines 35-39): left-to-right over the flag
token's characters, `Flag::from_char` each one and `Flags::add` it to the
set. -/
def fromChars (cs : List Char) : Except ReggieError Flags :=
  cs.foldlM (fun fs c => do
    let f ← Flag.fromChar c
    .ok (add fs f)) empty

end Flags

/-- Repetition kind `Q` from `src/src/components/quantifiers.rs` (identical
in the legacy `src/src/components.rs`). -/
inductive Q where
  | zeroOrOne
  | zeroOrMore
  | oneOrMore
  | nExact (n : Nat)
  | nTimes (min : Option Nat) (max : Option Nat)
deriving DecidableEq, Repr

/-- Greediness mode `G`. -/
inductive G where
  | greedy
  | nonGreedy
  | possessive
deriving DecidableEq, Repr

/-- `Quantifier` from `src/src/components/quantifiers.rs`. -/
structure Quantifier where
  quantifier : Q
  greed : G
deriving DecidableEq, Repr

namespace Quantifier

/-- `Quantifier::is_finite` from `src/src/components/quantifiers.rs`
lines 172-177: `matches!(ZeroOrOne | NExact(_) | NTimes \x7b max: Some(_), .. \x7d)`. -/
def isFinite (q : Quantifier) : Bool :=
  match q.quantifier with
  | .zeroOrOne => true
  | .nExact _ => true
  | .nTimes _ (some _) => true
  | _ => false

/-- `Quantifier::is_finite` from the legacy `src/src/components.rs`
lines 771-776: false only for `ZeroOrMore` and `OneOrMore`. -/
def isFiniteLegacy (q : Quantifier) : Bool :=
  match q.quantifier with
  | .zeroOrMore => false
  | .oneOrMore => false
  | _ => true

/-- `Quantifier::min_len_multiplier` from `src/src/components/quantifiers.rs`
lines 184-191 (identical in the legacy `src/src/components.rs`). -/
def minLenMultiplier (q : Quantifier) : Nat :=
  match q.quantifier with
  | .zeroOrOne => 0
  | .zeroOrMore => 0
  | .oneOrMore => 1
  | .nExact n => n
  | .nTimes min _ => min.getD 0

/-- `Quantifier::as_string` from `src/src/components/quantifiers.rs`
lines 135-168. -/
def asString (q : Quantifier) : String :=
  let s :=
    match q.quantifier with
    | .zeroOrOne => "?"
    | .zeroOrMore => "*"
    | .oneOrMore => "+"
    | .nExact n => "\x7b" ++ Nat.repr n ++ "\x7d"
    | .nTimes (some mn) none => "\x7b" ++ Nat.repr mn ++ ",\x7d"
    | .nTimes none (some mx) => "\x7b," ++ Nat.repr mx ++ "\x7d"
    | .nTimes (some mn) (some mx) =>
        "\x7b" ++ Nat.repr mn ++ "," ++ Nat.repr mx ++ "\x7d"
    | .nTimes none none => ""
  match q.greed with
  | .nonGreedy => s ++ "?"
  | .possessive => s ++ "+"
  | .greedy => s

end Quantifier

/-- Dense index of a Unicode scalar value: the characters in their natural
order with the surrogate gap removed, so that range arithmetic over the
character domain is arithmetic on `Nat`. -/
def charIdx (c : Char) : Nat :=
  if c.toNat < 0xD800 then c.toNat else c.toNat - 0x800

/-- Inverse of `charIdx`. -/
def idxChar (i : Nat) : Char :=
  Char.ofNat (if i < 0xD800 then i else i + 0x800)

/-- Dense index of the largest character (`char::MAX`, U+10FFFF). -/
def domMax : Nat := 1112063

/-- Modelled from the spec: the external `disjoint_ranges` crate's
`DisjointRange<char>` is not in `src/`.  Per spec section 4.1 it maintains a
character set as the minimal sorted list of non-adjacent, non-overlapping
inclusive ranges; ranges are stored here as pairs of dense character
indices (`charIdx`). -/
structure DisjointRange where
  ranges : List (Nat × Nat)
deriving DecidableEq, Repr

namespace DisjointRange

/-- Modelled from the spec: `DisjointRange::empty`. -/
def empty : DisjointRange := ⟨[]⟩

/-- Modelled from the spec: merge one inclusive range into a sorted disjoint
list, coalescing with every range it touches or overlaps
(spec section 4.1, `add_range`). -/
def addUnaryAux (lo hi : Nat) : List (Nat × Nat) → List (Nat × Nat)
  | [] => [(lo, hi)]
  | (a, b) :: rest =>
    if hi + 1 < a then (lo, hi) :: (a, b) :: rest
    else if b + 1 < lo then (a, b) :: addUnaryAux lo hi rest
    else addUnaryAux (min lo a) (max hi b) rest

/-- Modelled from the spec: `DisjointRange::add_unary_range`; the
`UnaryRange::new_unchecked` argument is the unvalidated pair of bounds. -/
def addUnary (r : DisjointRange) (lo hi : Nat) : DisjointRange :=
  ⟨addUnaryAux lo hi r.ranges⟩

/-- Modelled from the spec: `DisjointRange::add_disjoint_range`, the union of
another interval set into this one (spec section 4.1). -/
def addDisjoint (r other : DisjointRange) : DisjointRange :=
  other.ranges.foldl (fun acc p => acc.addUnary p.1 p.2) r

/-- Gap-walking core of the complement: emits every maximal run of the
domain `[lo, domMax]` not covered by the (sorted, disjoint) input list. -/
def complAux (lo : Nat) : List (Nat × Nat) → List (Nat × Nat)
  | [] => if lo ≤ domMax then [(lo, domMax)] else []
  | (a, b) :: rest => (if lo < a then [(lo, a - 1)] else []) ++ complAux (b + 1) rest

/-- Modelled from the spec: `DisjointRange::complement`, the set of all
characters of the domain not covered, as the minimal disjoint range list
(spec section 4.1). -/
def complement (r : DisjointRange) : DisjointRange := ⟨complAux 0 r.ranges⟩

/-- Modelled from the spec: `DisjointRange::from_bounds`, which fails (returns
nothing) when any pair has `low > high` (spec section 4.1). -/
def fromBounds (ps : List (Char × Char)) : Option DisjointRange :=
  if ps.all (fun p => p.1 ≤ p.2) then
    some (ps.foldl (fun acc p => acc.addUnary (charIdx p.1) (charIdx p.2)) empty)
  else none

/-- Modelled from the spec: `DisjointRange::from_bounds_unchecked`. -/
def fromBoundsUnchecked (ps : List (Char × Char)) : DisjointRange :=
  ps.foldl (fun acc p => acc.addUnary (charIdx p.1) (charIdx p.2)) empty

/-- Modelled from the spec: `DisjointRange::new_single_range_unchecked`. -/
def newSingleUnchecked (lo hi : Char) : DisjointRange :=
  ⟨[(charIdx lo, charIdx hi)]⟩

/-- Well-formedness of a range list from lower bound `lo`: every range is
within the domain, ordered, and separated from its successor by a gap of at
least one character — the disjointness invariant of spec section 8. -/
def chainB : Nat → List (Nat × Nat) → Bool
  | _, [] => true
  | lo, (a, b) :: rest => lo ≤ a && a ≤ b && b ≤ domMax && chainB (b + 2) rest

end DisjointRange

/-- Predefined-class tag `CClass` from `src/src/components/char_set.rs`. -/
inductive CClass where
  | d
  | s
  | w
  | negD
  | negS
  | negW
deriving DecidableEq, Repr

/-- Private class tag `CC` from `src/src/components/char_set.rs`. -/
inductive CC where
  | d
  | s
  | w
deriving DecidableEq, Repr

/-- `CharClass` from `src/src/components/char_set.rs`. -/
structure CharClass where
  class' : CC
  negated : Bool
deriving DecidableEq, Repr

/-- `CClass::from_str` from `src/src/components/char_set.rs` lines 110-125. -/
def CClass.fromStr (s : String) : Except ReggieError CClass :=
  if s.startsWith "\\" then
    let other := s.drop 1
    match other with
    | "d" => .ok .d
    | "D" => .ok .negD
    | "s" => .ok .s
    | "S" => .ok .negS
    | "w" => .ok .w
    | "W" => .ok .negW
    | _ => .error (.invalidCharClass other)
  else .error (.invalidCharClass s)

/-- `CClass::to_char_class` from `src/src/components/char_set.rs`. -/
def CClass.toCharClass : CClass → CharClass
  | .d => ⟨.d, false⟩
  | .negD => ⟨.d, true⟩
  | .s => ⟨.s, false⟩
  | .negS => ⟨.s, true⟩
  | .w => ⟨.w, false⟩
  | .negW => ⟨.w, true⟩

namespace CharClass

/-- `CharClass::digit_range`: the span `0-9`. -/
def digitRange : DisjointRange := DisjointRange.newSingleUnchecked '0' '9'

/-- `CharClass::whitespace_range`: the span TAB-CR plus the space. -/
def whitespaceRange : DisjointRange :=
  DisjointRange.fromBoundsUnchecked [('\t', '\r'), (' ', ' ')]

/-- `CharClass::word_range`: `a-z`, `A-Z`, `0-9`. -/
def wordRange : DisjointRange :=
  DisjointRange.fromBoundsUnchecked [('a', 'z'), ('A', 'Z'), ('0', '9')]

/-- `CharClass::to_range` from `src/src/components/char_set.rs`
lines 170-181: desugar to concrete ranges, complement when negated. -/
def toRange (cc : CharClass) : DisjointRange :=
  let r :=
    match cc.class' with
    | .d => digitRange
    | .s => whitespaceRange
    | .w => wordRange
  if cc.negated then r.complement else r

end CharClass

/-- Parse-tree node kinds consumed by the embedded builder code (the external
pest grammar's `Rule` enumeration, restricted to the kinds `src/` consumes
in the character-set path). -/
inductive Rule where
  | char_set
  | set_negation
  | char_range
  | hyphen
  | set_literal
  | escaped_hyphen
  | caret
  | char_class
  | l_sq
  | r_sq
  | other
deriving DecidableEq, Repr

/-- A parse-tree node ("pair") as described at the input boundary in spec
section 6: a kind tag, the literal source text, a source position (the
column, which is what the builder code reads from `line_col()`), and the
ordered child nodes. -/
inductive PPair where
  | mk (rule : Rule) (text : String) (charIx : Nat) (children : List PPair)

namespace PPair

/-- Kind tag of a pair. -/
def rule : PPair → Rule
  | .mk r _ _ _ => r

/-- Literal source text of a pair. -/
def text : PPair → String
  | .mk _ t _ _ => t

/-- Source column of a pair (`line_col().1`). -/
def charIx : PPair → Nat
  | .mk _ _ i _ => i

/-- Child pairs (`into_inner()`). -/
def children : PPair → List PPair
  | .mk _ _ _ cs => cs

end PPair

/-- First character of a Rust string slice (`s.chars().nth(0)`). -/
def firstChar? (s : String) : Option Char := s.data.head?

/-- `CharClass::from_pair` from `src/src/components/char_set.rs`
lines 191-200: skip the backslash child, feed the next child's text to
`CClass::from_str`. -/
def CharClass.fromPair (p : PPair) : Except ReggieError CharClass :=
  match p.children with
  | _ :: c :: _ => do
    let cl ← CClass.fromStr c.text
    .ok cl.toCharClass
  | _ => .error (.unexpectedEndOfInput p.charIx)

/-- `CharSet` from `src/src/components/char_set.rs`. -/
structure CharSet where
  char_ranges : DisjointRange
deriving DecidableEq, Repr

namespace CharSet

/-- The child loop of `CharSet::from_pair` from
`src/src/components/char_set.rs` lines 17-64, arm by arm: accumulate ranges
into the `DisjointRange` and record whether a `set_negation` was seen.  The
`char_range` arm passes its bounds through `UnaryRange::new_unchecked`
without any order check. -/
def fromPairLoop : List PPair → DisjointRange → Bool →
    Except ReggieError (DisjointRange × Bool)
  | [], dr, neg => .ok (dr, neg)
  | p :: rest, dr, neg =>
    match p.rule with
    | .set_negation => fromPairLoop rest dr true
    | .char_range =>
      match p.children with
      | low :: _ :: high :: _ =>
        match firstChar? low.text, firstChar? high.text with
        | some lc, some hc =>
          fromPairLoop rest (dr.addUnary (charIdx lc) (charIdx hc)) neg
        | _, _ => .error (.unexpectedEndOfInput p.charIx)
      | _ => .error (.unexpectedEndOfInput p.charIx)
    | .hyphen => fromPairLoop rest (dr.addUnary (charIdx '-') (charIdx '-')) neg
    | .set_literal =>
      match firstChar? p.text with
      | some c => fromPairLoop rest (dr.addUnary (charIdx c) (charIdx c)) neg
      | none => .error (.unexpectedEndOfInput p.charIx)
    | .escaped_hyphen => fromPairLoop rest (dr.addUnary (charIdx '-') (charIdx '-')) neg
    | .caret => fromPairLoop rest (dr.addUnary (charIdx '^') (charIdx '^')) neg
    | .char_class => do
      let cls ← CharClass.fromPair p
      fromPairLoop rest (dr.addDisjoint cls.toRange) neg
    | .l_sq => fromPairLoop rest dr neg
    | .r_sq => fromPairLoop rest dr neg
    | _ => .error (.unexpectedInput p.text p.charIx)

/-- `CharSet::from_pair` from `src/src/components/char_set.rs` lines 11-76.
The non-`char_set` branch panics (`unreachable!`) in the source; it is
rendered here as an `unexpectedInput` error and never exercised. -/
def fromPair (p : PPair) : Except ReggieError CharSet :=
  if p.rule = .char_set then do
    let (dr, neg) ← fromPairLoop p.children DisjointRange.empty false
    if neg then .ok ⟨dr.complement⟩ else .ok ⟨dr⟩
  else .error (.unexpectedInput p.text p.charIx)

/-- `CharSet::as_string` from `src/src/components/char_set.rs` lines 77-85:
a bracketed concatenation of `low-high` for every stored range. -/
def asString (cs : CharSet) : String :=
  let s := cs.char_ranges.ranges.foldl
    (fun s p => ((s.push (idxChar p.1)).push '-').push (idxChar p.2)) "["
  s.push ']'

/-- `CharSet::from_ranges` from `src/src/components/char_set.rs`
lines 86-91: `DisjointRange::from_bounds` with the `InvalidRanges` error
naming the offending list. -/
def fromRanges (ranges : List (Char × Char)) : Except ReggieError CharSet :=
  match DisjointRange.fromBounds ranges with
  | some dr => .ok ⟨dr⟩
  | none => .error (.invalidRanges ranges)

/-- `CharSet::from_cclass` from `src/src/components/char_set.rs`
lines 92-96. -/
def fromCClass (cclass : CClass) : CharSet :=
  ⟨cclass.toCharClass.toRange⟩

/-- `CharSet::min_match_len` from the legacy `src/src/components.rs`
lines 535-537 (the split `char_set.rs` lacks the method although
`element.rs` calls it): a character class consumes one character. -/
def minMatchLen (_ : CharSet) : Nat := 1

end CharSet

/-- `Literal` from `src/src/components/element.rs`: a fixed run of literal
characters. -/
structure Literal where
  s : String
deriving DecidableEq, Repr

/-- `Literal::as_string`. -/
def Literal.asString (l : Literal) : String := l.s

/-- `Literal::min_match_len` from `src/src/components/element.rs`
lines 63-65 (identical in the legacy `src/src/components.rs` lines 463-465):
`self.0.len()`, the UTF-8 byte length of the stored string. -/
def Literal.minMatchLen (l : Literal) : Nat := rustStrLen l.s

/-- `Element` from `src/src/components/element.rs`. -/
inductive Element where
  | charSet (cs : CharSet)
  | literal (l : Literal)
deriving DecidableEq, Repr

/-- `Element::as_string`. -/
def Element.asString : Element → String
  | .charSet cs => cs.asString
  | .literal l => l.asString

/-- `Element::min_match_len` from `src/src/components/element.rs`. -/
def Element.minMatchLen : Element → Nat
  | .charSet cs => cs.minMatchLen
  | .literal l => l.minMatchLen

/-- `ZeroWidthLiteral` from `src/src/components/element.rs`. -/
inductive ZeroWidthLiteral where
  | inputStart
  | inputEnd
  | wordBoundary
  | notWordBoundary
deriving DecidableEq, Repr

/-- `ZeroWidthLiteral::as_string` from `src/src/components/element.rs`
lines 90-97. -/
def ZeroWidthLiteral.asString : ZeroWidthLiteral → String
  | .inputStart => "\\a"
  | .inputEnd => "\\z"
  | .notWordBoundary => "\\B"
  | .wordBoundary => "\\b"

/-- `GroupExt` from `src/src/components/groups.rs`. -/
inductive GroupExt where
  | nonCapturing
  | atomic
  | posLookahead
  | negLookahead
  | posLookbehind
  | negLookbehind
deriving DecidableEq, Repr

/-- `GroupExt::as_string` from `src/src/components/groups.rs` lines 20-29. -/
def GroupExt.asString : GroupExt → String
  | .nonCapturing => "?:"
  | .atomic => "?>"
  | .posLookahead => "?="
  | .negLookahead => "?!"
  | .posLookbehind => "?<="
  | .negLookbehind => "?<!"

/-- `TernaryGroupId` from `src/src/components/groups.rs`. -/
inductive TernaryGroupId where
  | numbered (n : Nat)
  | named (name : String)
deriving DecidableEq, Repr

/-- `TernaryGroupId::as_string`. -/
def TernaryGroupId.asString : TernaryGroupId → String
  | .numbered n => Nat.repr n
  | .named n => n

mutual

/-- `SubPattern` from `src/src/components/pattern.rs` lines 257-263.  The
`Alternatives` newtype wrapper around its `Vec<SubPattern>` is inlined as
the list of alternatives. -/
inductive SubPattern where
  | alternatives (alts : List SubPattern)
  | quantified (q : Quantified)
  | zeroWidthLiteral (z : ZeroWidthLiteral)
  | comment (s : String)

/-- `Quantified` from `src/src/components/quantified.rs`. -/
inductive Quantified where
  | mk (quantifiable : Quantifiable) (quantifier : Option Quantifier)

/-- `Quantifiable` from `src/src/components/quantified.rs`. -/
inductive Quantifiable where
  | element (e : Element)
  | group (g : Group)

/-- `Group` from `src/src/components/groups.rs` lines 47-63. -/
inductive Group where
  | namedBackref (name : String)
  | ternary (groupId : TernaryGroupId) (yesPat : SubPattern) (noPat : Option SubPattern)
  | group (ext : Option GroupExt) (flags : Flags) (name : Option String)
      (components : List SubPattern)

end

/-- `Quantified::is_finite` from `src/src/components/quantified.rs`
lines 114-116: it consults only the optional quantifier
(`self.quantifier.map(|q| q.is_finite()).unwrap_or(true)`) and never the
quantifiable payload. -/
def Quantified.isFinite : Quantified → Bool
  | .mk _ (some q) => q.isFinite
  | .mk _ none => true

mutual

/-- `SubPattern::is_finite` from `src/src/components/pattern.rs`
lines 382-388. -/
def SubPattern.isFinite : SubPattern → Bool
  | .alternatives alts => altsAllFinite alts
  | .quantified q => q.isFinite
  | .zeroWidthLiteral _ => true
  | .comment _ => true

/-- The early-return loop of `Alternatives::is_finite` from
`src/src/components/alternatives.rs` lines 48-55. -/
def altsAllFinite : List SubPattern → Bool
  | [] => true
  | sp :: rest => sp.isFinite && altsAllFinite rest

end

/-- `Group::is_finite` from `src/src/components/groups.rs` lines 318-334
(the method carries a `TODO(shr) similarly flawed` comment in the source). -/
def Group.isFinite : Group → Bool
  | .namedBackref _ => true
  | .ternary _ yes no => yes.isFinite && (no.map SubPattern.isFinite).getD true
  | .group _ _ _ components => altsAllFinite components

mutual

/-- `SubPattern::min_match_len` from `src/src/components/pattern.rs`
lines 389-396. -/
def SubPattern.minMatchLen : SubPattern → Nat
  | .alternatives alts => altsMinLoop alts (2 ^ 64 - 1)
  | .quantified q => Quantified.minMatchLen q
  | .zeroWidthLiteral _ => 0
  | .comment _ => 0

/-- The minimum-seeking loop of `Alternatives::min_match_len` from
`src/src/components/alternatives.rs` lines 56-65, starting at `usize::MAX`. -/
def altsMinLoop : List SubPattern → Nat → Nat
  | [], m => m
  | sp :: rest, m =>
    let mml := sp.minMatchLen
    altsMinLoop rest (if mml < m then mml else m)

/-- `Quantified::min_match_len` from `src/src/components/quantified.rs`
lines 110-113: the payload's minimum times the quantifier's multiplier
(1 when no quantifier is attached). -/
def Quantified.minMatchLen : Quantified → Nat
  | .mk qb qf => Quantifiable.minMatchLen qb * (qf.map Quantifier.minLenMultiplier).getD 1

/-- `Quantifiable::min_match_len` from `src/src/components/quantified.rs`. -/
def Quantifiable.minMatchLen : Quantifiable → Nat
  | .element e => e.minMatchLen
  | .group g => Group.minMatchLen g

/-- `Group::min_match_len` from `src/src/components/groups.rs` lines 335-346
(the method carries a `TODO(shr) this isn't quite right` comment): a
non-capturing group contributes 0, other groups sum their components. -/
def Group.minMatchLen : Group → Nat
  | .namedBackref _ => 0
  | .ternary _ yes _ => yes.minMatchLen
  | .group (some .nonCapturing) _ _ _ => 0
  | .group _ _ _ components => compsSumMML components

/-- Sum of the component minimums of a plain group. -/
def compsSumMML : List SubPattern → Nat
  | [] => 0
  | sp :: rest => sp.minMatchLen + compsSumMML rest

end

mutual

/-- `SubPattern::as_string` from `src/src/components/pattern.rs`
lines 363-370.  The `Alternatives` arm embeds
`Alternatives::as_string` (`src/src/components/alternatives.rs`
lines 34-47): the first alternative followed by `|`, then the remaining
alternatives enumerated from index 0 with a `|` after each one whose
`index + 1` is under the total count.  (The source unwraps the first
alternative and would panic on an empty list; that case renders as "".) -/
def SubPattern.asString : SubPattern → String
  | .alternatives [] => ""
  | .alternatives (fst :: rest) =>
    fst.asString ++ "|" ++ altTailString (rest.length + 1) 0 rest
  | .quantified q => q.asString
  | .zeroWidthLiteral z => z.asString
  | .comment c => "(?#" ++ c ++ ")"

/-- The post-head loop of `Alternatives::as_string`: `cl` is the total
number of alternatives and `ix` the enumeration index, which restarts at 0
on the second alternative. -/
def altTailString (cl ix : Nat) : List SubPattern → String
  | [] => ""
  | sp :: rest =>
    if ix + 1 ≥ cl then sp.asString ++ altTailString cl (ix + 1) rest
    else sp.asString ++ "|" ++ altTailString cl (ix + 1) rest

/-- `Quantified::as_string` from `src/src/components/quantified.rs`
lines 97-103. -/
def Quantified.asString : Quantified → String
  | .mk qb (some q) => Quantifiable.asString qb ++ q.asString
  | .mk qb none => Quantifiable.asString qb

/-- `Quantifiable::as_string` from `src/src/components/quantified.rs`. -/
def Quantifiable.asString : Quantifiable → String
  | .element e => e.asString
  | .group g => Group.asString g

/-- `Group::as_string` from `src/src/components/groups.rs` lines 249-304.
The two `unreachable!` arms (a group with neither `ext` nor `name`, or with
both) render as "" and are never exercised. -/
def Group.asString : Group → String
  | .namedBackref name => "(?P=" ++ name ++ ")"
  | .ternary gid yes none => "(?(" ++ gid.asString ++ ")" ++ yes.asString ++ ")"
  | .ternary gid yes (some no) =>
    "(?(" ++ gid.asString ++ ")" ++ yes.asString ++ "|" ++ no.asString ++ ")"
  | .group (some ext) _ none comps => "(?" ++ ext.asString ++ compsString comps ++ ")"
  | .group none _ (some name) comps => "(?P<" ++ name ++ ">" ++ compsString comps ++ ")"
  | .group none _ none _ => ""
  | .group (some _) _ (some _) _ => ""

/-- Concatenation of the component renderings of a group. -/
def compsString : List SubPattern → String
  | [] => ""
  | sp :: rest => sp.asString ++ compsString rest

end

/-- `Pat` from `src/src/components/pattern.rs` lines 185-189. -/
structure Pat where
  flags : Flags
  sub_patterns : List SubPattern

/-- `Pattern` from `src/src/components/pattern.rs` lines 17-21. -/
inductive Pattern where
  | pat (p : Pat)
  | sub (sp : SubPattern)

/-- `Pat::is_finite` from `src/src/components/pattern.rs` lines 238-245. -/
def Pat.isFinite (p : Pat) : Bool := altsAllFinite p.sub_patterns

/-- `Pat::min_match_len` from `src/src/components/pattern.rs`
lines 246-248. -/
def Pat.minMatchLen (p : Pat) : Nat := compsSumMML p.sub_patterns

/-- `Pattern::is_finite` from `src/src/components/pattern.rs`
lines 139-144. -/
def Pattern.isFinite : Pattern → Bool
  | .pat p => p.isFinite
  | .sub sp => sp.isFinite

/-- `Pattern::min_match_len` from `src/src/components/pattern.rs`
lines 133-138. -/
def Pattern.minMatchLen : Pattern → Nat
  | .pat p => p.minMatchLen
  | .sub sp => sp.minMatchLen

mutual

/-- `SubPattern::nth_group` from `src/src/components/pattern.rs`
lines 371-381, parameterized by `f`, a stand-in for the
`Quantified::nth_group` method that `pattern.rs` calls but that is absent
from `src/` (only this call site exists). -/
def SubPattern.nthGroupWith (f : Quantified → Nat → Option Pattern)
    (sp : SubPattern) (n : Nat) : Option Pattern :=
  if n = 0 then some (.sub sp)
  else
    match sp with
    | .alternatives alts => altsNthGroup f alts n
    | .quantified q => f q n
    | _ => none

/-- `Alternatives::nth_group` from `src/src/components/alternatives.rs`
lines 69-82, parameterized like `SubPattern.nthGroupWith`. -/
def altsNthGroup (f : Quantified → Nat → Option Pattern)
    (alts : List SubPattern) (n : Nat) : Option Pattern :=
  if n = 0 then some (.sub (.alternatives alts))
  else nthGroupLoop f alts n

/-- The first-some loop shared by `Alternatives::nth_group` and
`Pat::nth_group`: each member is asked for the n-th group with the SAME `n`
(the source binds `let i = n;` and never decrements it). -/
def nthGroupLoop (f : Quantified → Nat → Option Pattern)
    (sps : List SubPattern) (n : Nat) : Option Pattern :=
  match sps with
  | [] => none
  | sp :: rest =>
    match sp.nthGroupWith f n with
    | some p => some p
    | none => nthGroupLoop f rest n

end

/-- `Pat::nth_group` from `src/src/components/pattern.rs` lines 211-225. -/
def Pat.nthGroupWith (f : Quantified → Nat → Option Pattern)
    (p : Pat) (n : Nat) : Option Pattern :=
  if n = 0 then some (.pat p) else nthGroupLoop f p.sub_patterns n

/-- `Pattern::nth_group` from `src/src/components/pattern.rs`
lines 159-168. -/
def Pattern.nthGroupWith (f : Quantified → Nat → Option Pattern)
    (p : Pattern) (n : Nat) : Option Pattern :=
  if n = 0 then some p
  else
    match p with
    | .pat q => q.nthGroupWith f n
    | .sub s => s.nthGroupWith f n

/-- `GroupFlags` from `src/src/components/flags.rs`: a positive and a
negative flag set. -/
structure GroupFlags where
  pos : Flags
  neg : Flags
deriving DecidableEq, Repr

/-- `GroupFlags::empty`. -/
def GroupFlags.empty : GroupFlags := ⟨Flags.empty, Flags.empty⟩

namespace Legacy

mutual

/-- `SubPattern` from the legacy `src/src/components.rs` lines 37-46 — the
shape `group_indices.rs`'s `collect_component_groups` pattern-matches
(a direct `Group` variant, which the split `pattern.rs` no longer has). -/
inductive SubPattern where
  | quantifiable (el : Element) (quantifier : Option Quantifier)
  | zeroWidthLiteral (z : ZeroWidthLiteral)
  | comment (s : String)
  | group (g : Group)

/-- `Group` from the legacy `src/src/components.rs` lines 184-200. -/
inductive Group where
  | namedBackref (name : String)
  | ternary (groupId : TernaryGroupId) (yesPat : SubPattern) (noPat : Option SubPattern)
  | group (ext : Option GroupExt) (flags : GroupFlags) (name : Option String)
      (components : List SubPattern)

end

/-- Insertion into the `HashMap<String, &SubPattern>` of `GroupIndices`:
`HashMap::insert` replaces any entry with the same key. -/
def namedInsert (k : String) (v : SubPattern) :
    List (String × SubPattern) → List (String × SubPattern)
  | [] => [(k, v)]
  | (k', v') :: rest =>
    if k' = k then (k, v) :: rest else (k', v') :: namedInsert k v rest

/-- Lookup in the name table (`HashMap::get`). -/
def namedLookup (k : String) : List (String × SubPattern) → Option SubPattern
  | [] => none
  | (k', v') :: rest => if k' = k then some v' else namedLookup k rest

/-- `GroupIndices::collect_component_groups` from
`src/src/components/group_indices.rs` lines 22-48 as a state-passing
function over `(indexed, named)`: a `Group::Group` component whose `ext` is
`NonCapturing` is skipped together with its whole subtree; any other
`Group::Group` is registered under its name (when named), pushed onto the
indexed list, and its components are collected recursively; every other
component kind is passed over. -/
def collectComponentGroups (acc : List SubPattern × List (String × SubPattern)) :
    List SubPattern → List SubPattern × List (String × SubPattern)
  | [] => acc
  | c :: rest =>
    match h : c with
    | .group (.group ext _ name comps) =>
      match ext with
      | some .nonCapturing => collectComponentGroups acc rest
      | _ =>
        let acc1 :=
          match name with
          | some nm => (acc.1, namedInsert nm c acc.2)
          | none => acc
        let acc2 := (acc1.1 ++ [c], acc1.2)
        collectComponentGroups (collectComponentGroups acc2 comps) rest
    | _ => collectComponentGroups acc rest

/-- `Pattern` from the legacy `src/src/components.rs` lines 6-10 (the shape
`GroupIndices::new` reads `sub_patterns` from). -/
structure Pattern where
  flags : Flags
  sub_patterns : List SubPattern

/-- `GroupIndices` from `src/src/components/group_indices.rs`: the ordered
indexed-group list and the name table produced by `GroupIndices::new`. -/
structure GroupIndices where
  indexed : List SubPattern
  named : List (String × SubPattern)

/-- `GroupIndices::new` from `src/src/components/group_indices.rs`
lines 12-21. -/
def GroupIndices.new (pat : Pattern) : GroupIndices :=
  let acc := collectComponentGroups ([], []) pat.sub_patterns
  ⟨acc.1, acc.2⟩

end Legacy

/-! Example values used by the theorems below. -/

/-- A literal-run sub-pattern with no quantifier, as the builder produces
for a bare literal. -/
def spLit (s : String) : SubPattern :=
  .quantified (.mk (.element (.literal ⟨s⟩)) none)

/-- A literal-run sub-pattern carrying a greedy quantifier of kind `qk`. -/
def spLitQ (s : String) (qk : Q) : SubPattern :=
  .quantified (.mk (.element (.literal ⟨s⟩)) (some ⟨qk, .greedy⟩))

/-- The group `(a*)`: a plain capturing group whose only component is the
quantified literal `a*`. -/
def groupAStar : Group :=
  .group none Flags.empty none [spLitQ "a" .zeroOrMore]

/-- The pattern whose only sub-pattern is the group `(a*)`. -/
def patGroupAStar : Pattern :=
  .pat ⟨Flags.empty, [.quantified (.mk (.group groupAStar) none)]⟩

/-- The `Quantified` node of the capturing group `(a)`. -/
def quantGroupA : Quantified :=
  .mk (.group (.group none Flags.empty none [spLit "a"])) none

/-- The `Quantified` node of the non-capturing group `(?:b)`. -/
def quantGroupB : Quantified :=
  .mk (.group (.group (some .nonCapturing) Flags.empty none [spLit "b"])) none

/-- The `Quantified` node of the named capturing group `(?P<x>c)`. -/
def quantGroupX : Quantified :=
  .mk (.group (.group none Flags.empty (some "x") [spLit "c"])) none

/-- The pattern `(a)`. -/
def patOnlyA : Pattern := .pat ⟨Flags.empty, [.quantified quantGroupA]⟩

/-- The pattern `(?:b)`. -/
def patOnlyB : Pattern := .pat ⟨Flags.empty, [.quantified quantGroupB]⟩

/-- The pattern `(?P<x>c)`. -/
def patOnlyX : Pattern := .pat ⟨Flags.empty, [.quantified quantGroupX]⟩

/-- The pattern `(a)(?:b)(?P<x>c)` of the group-indexing example. -/
def patABX : Pattern :=
  .pat ⟨Flags.empty, [.quantified quantGroupA, .quantified quantGroupB,
    .quantified quantGroupX]⟩

/-- Legacy-shape literal sub-pattern. -/
def lSpLit (s : String) : Legacy.SubPattern := .quantifiable (.literal ⟨s⟩) none

/-- Legacy-shape node of the capturing group `(a)`. -/
def lGroupA : Legacy.SubPattern :=
  .group (.group none GroupFlags.empty none [lSpLit "a"])

/-- Legacy-shape node of the non-capturing group `(?:b)`. -/
def lGroupB : Legacy.SubPattern :=
  .group (.group (some .nonCapturing) GroupFlags.empty none [lSpLit "b"])

/-- Legacy-shape node of the named capturing group `(?P<x>c)`. -/
def lGroupX : Legacy.SubPattern :=
  .group (.group none GroupFlags.empty (some "x") [lSpLit "c"])

/-- Legacy-shape pattern `(a)(?:b)(?P<x>c)`. -/
def lPatABX : Legacy.Pattern := ⟨Flags.empty, [lGroupA, lGroupB, lGroupX]⟩

/-- Parse-tree node of a bracket range `lo-hi` (children: the low bound, the
hyphen, the high bound, as `CharSet::from_pair`'s `char_range` arm reads
them). -/
def mkRangePair (lo hi : Char) : PPair :=
  .mk .char_range (String.mk [lo, '-', hi]) 2
    [.mk .set_literal (String.mk [lo]) 2 [], .mk .hyphen "-" 3 [],
     .mk .set_literal (String.mk [hi]) 4 []]

/-- Parse-tree node of a whole bracket expression with the given inner
member nodes. -/
def mkBracketPair (inner : List PPair) (txt : String) : PPair :=
  .mk .char_set txt 1
    ([PPair.mk .l_sq "[" 1 []] ++ inner ++ [PPair.mk .r_sq "]" 9 []])

/-- Parse tree of the malformed bracket expression `[z-a]`. -/
def zaPair : PPair := mkBracketPair [mkRangePair 'z' 'a'] "[z-a]"

/-- Parse tree of `[a]` (a single literal member). -/
def aLitPair : PPair := mkBracketPair [PPair.mk .set_literal "a" 2 []] "[a]"

/-- Parse tree of `[a-a]`. -/
def aaRangePair : PPair := mkBracketPair [mkRangePair 'a' 'a'] "[a-a]"

/-- Parse tree of `[0-9]`. -/
def digRangePair : PPair := mkBracketPair [mkRangePair '0' '9'] "[0-9]"

/-! Theorems settling the claims. -/

/-- Claim C1.  The round-trip law fails on alternation: the enumeration
index in `Alternatives::as_string` restarts at 0 after the first
alternative has been consumed, so the guard `ix + 1 >= cl` that should
suppress the final separator never fires and every alternation is rendered
with a trailing `|` — `a|bb` serializes as `a|bb|`, not as its alternatives
joined by single `|` separators. -/
theorem alternation_serialization_emits_trailing_pipe :
    SubPattern.asString (.alternatives [spLit "a", spLit "bb"]) = "a|bb|"
    ∧ SubPattern.asString (.alternatives [spLit "a", spLit "b", spLit "c"]) = "a|b|c|"
    ∧ "a|bb|" ≠ "a|bb" := by
  refine ⟨by decide, by decide, by decide⟩

/-- Claim C2.  Group indexing over `(a)(?:b)(?P<x>c)`:
`collect_component_groups` indexes exactly the `(a)` and `(?P<x>c)` nodes
in order (count 2, the non-capturing group skipped) and the name table maps
`x` to the same node as index 2; and `nth_group(0)` is the whole pattern.
But `Pat::nth_group` forwards the same `n` to every sub-pattern, so for any
completion `f` of the missing `Quantified::nth_group` under which the
single-group patterns `(a)`, `(?:b)`, `(?P<x>c)` correctly miss on query 2,
`nth_group(2)` on `(a)(?:b)(?P<x>c)` returns nothing instead of the
`(?P<x>c)` node. -/
theorem group_indexing_and_nth_group_conflict :
    (Legacy.GroupIndices.new lPatABX).indexed = [lGroupA, lGroupX]
    ∧ (Legacy.GroupIndices.new lPatABX).indexed.length = 2
    ∧ Legacy.namedLookup "x" (Legacy.GroupIndices.new lPatABX).named = some lGroupX
    ∧ (∀ (f : Quantified → Nat → Option Pattern) (p : Pattern),
        Pattern.nthGroupWith f p 0 = some p)
    ∧ ∀ f : Quantified → Nat → Option Pattern,
        Pattern.nthGroupWith f patOnlyA 2 = none →
        Pattern.nthGroupWith f patOnlyB 2 = none →
        Pattern.nthGroupWith f patOnlyX 2 = none →
        Pattern.nthGroupWith f patABX 2 = none := by
  refine ⟨?_, ?_, ?_, fun f p => rfl, ?_⟩
  · simp [Legacy.GroupIndices.new, Legacy.collectComponentGroups, Legacy.namedInsert,
      lPatABX, lGroupA, lGroupB, lGroupX, lSpLit]
  · simp [Legacy.GroupIndices.new, Legacy.collectComponentGroups, Legacy.namedInsert,
      lPatABX, lGroupA, lGroupB, lGroupX, lSpLit]
  · simp [Legacy.GroupIndices.new, Legacy.collectComponentGroups, Legacy.namedInsert,
      Legacy.namedLookup, lPatABX, lGroupA, lGroupB, lGroupX, lSpLit]
  · intro f hA hB hX
    cases h1 : f quantGroupA 2 with
    | some v =>
      simp [Pattern.nthGroupWith, Pat.nthGroupWith, nthGroupLoop,
        SubPattern.nthGroupWith, patOnlyA, h1] at hA
    | none =>
      cases h2 : f quantGroupB 2 with
      | some v =>
        simp [Pattern.nthGroupWith, Pat.nthGroupWith, nthGroupLoop,
          SubPattern.nthGroupWith, patOnlyB, h2] at hB
      | none =>
        cases h3 : f quantGroupX 2 with
        | some v =>
          simp [Pattern.nthGroupWith, Pat.nthGroupWith, nthGroupLoop,
            SubPattern.nthGroupWith, patOnlyX, h3] at hX
        | none =>
          simp [Pattern.nthGroupWith, Pat.nthGroupWith, nthGroupLoop,
            SubPattern.nthGroupWith, patABX, h1, h2, h3]

/-- Witness for claim C2's theorem at the completion that always misses. -/
theorem group_indexing_and_nth_group_conflict_witness :
    Pattern.nthGroupWith (fun _ _ => none) patABX 2 = none :=
  group_indexing_and_nth_group_conflict.2.2.2.2 (fun _ _ => none)
    (by simp [Pattern.nthGroupWith, Pat.nthGroupWith, nthGroupLoop,
      SubPattern.nthGroupWith, patOnlyA])
    (by simp [Pattern.nthGroupWith, Pat.nthGroupWith, nthGroupLoop,
      SubPattern.nthGroupWith, patOnlyB])
    (by simp [Pattern.nthGroupWith, Pat.nthGroupWith, nthGroupLoop,
      SubPattern.nthGroupWith, patOnlyX])

/-- Claim C3.  `is_finite` on the pattern whose only sub-pattern is the
group `(a*)` evaluates to `true`, although the group's component `a*` is
not finite: `SubPattern::is_finite` delegates to `Quantified::is_finite`,
which inspects only the absent outer quantifier and never the group
payload, while the component-conjunction semantics the claim describes
lives in the never-consulted `Group::is_finite` (which indeed answers
`false` here). -/
theorem pattern_is_finite_ignores_group_payload :
    Pattern.isFinite patGroupAStar = true
    ∧ Group.isFinite groupAStar = false
    ∧ SubPattern.isFinite (spLitQ "a" .zeroOrMore) = false := by
  refine ⟨by decide, by decide, by decide⟩

/-- Counterexample to claim C4: the legacy `Quantifier::is_finite` of
`src/src/components.rs` answers `true` on the quantifier of `a\x7b3,\x7d`
(`NTimes` with absent max), so the claimed behaviour does not hold in every
version of the quantifier model present in the code. -/
theorem legacy_is_finite_on_unbounded_brace_range :
    Quantifier.isFiniteLegacy ⟨.nTimes (some 3) none, .greedy⟩ = true := by
  decide

/-- Claim C4 as amended.  In the current model
(`src/src/components/quantifiers.rs`) `is_finite` is true unless the kind
is `ZeroOrMore`, `OneOrMore`, or `NTimes` with absent max — the quantifiers
of `a\x7b2,4\x7d` and `a\x7b,5\x7d` are finite, those of `a*`, `a+`,
`a\x7b3,\x7d` are not — while the legacy model of `src/src/components.rs`
returns false only for `ZeroOrMore` and `OneOrMore` and hence reports the
quantifier of `a\x7b3,\x7d` as finite. -/
theorem quantifier_is_finite_per_model :
    Quantifier.isFinite ⟨.nTimes (some 2) (some 4), .greedy⟩ = true
    ∧ Quantifier.isFinite ⟨.nTimes none (some 5), .greedy⟩ = true
    ∧ Quantifier.isFinite ⟨.zeroOrMore, .greedy⟩ = false
    ∧ Quantifier.isFinite ⟨.oneOrMore, .greedy⟩ = false
    ∧ Quantifier.isFinite ⟨.nTimes (some 3) none, .greedy⟩ = false
    ∧ (∀ (g : G) (mn : Option Nat), Quantifier.isFinite ⟨.nTimes mn none, g⟩ = false)
    ∧ (∀ (g : G) (mn : Option Nat), Quantifier.isFiniteLegacy ⟨.nTimes mn none, g⟩ = true)
    ∧ (∀ (g : G), Quantifier.isFiniteLegacy ⟨.zeroOrMore, g⟩ = false
        ∧ Quantifier.isFiniteLegacy ⟨.oneOrMore, g⟩ = false) := by
  refine ⟨rfl, rfl, rfl, rfl, rfl, fun g mn => rfl, fun g mn => rfl, fun g => ⟨rfl, rfl⟩⟩

/-- Claim C5.  The minimum-match-length examples: 3 for `abc`, 0 for `a*`,
1 for `a+`, 2 for `a\x7b2,5\x7d`, 1 for `a|bb` (the minimum over the
alternatives); and the quantifier multiplier is 0 for `?` and `*`, 1 for
`+`, `n` for `\x7bn\x7d`, and min-or-0 for brace ranges. -/
theorem min_match_len_examples_and_multiplier :
    Pattern.minMatchLen (.pat ⟨Flags.empty, [spLit "abc"]⟩) = 3
    ∧ Pattern.minMatchLen (.pat ⟨Flags.empty, [spLitQ "a" .zeroOrMore]⟩) = 0
    ∧ Pattern.minMatchLen (.pat ⟨Flags.empty, [spLitQ "a" .oneOrMore]⟩) = 1
    ∧ Pattern.minMatchLen (.pat ⟨Flags.empty, [spLitQ "a" (.nTimes (some 2) (some 5))]⟩) = 2
    ∧ Pattern.minMatchLen (.pat ⟨Flags.empty, [.alternatives [spLit "a", spLit "bb"]]⟩) = 1
    ∧ (∀ g : G, Quantifier.minLenMultiplier ⟨.zeroOrOne, g⟩ = 0
        ∧ Quantifier.minLenMultiplier ⟨.zeroOrMore, g⟩ = 0
        ∧ Quantifier.minLenMultiplier ⟨.oneOrMore, g⟩ = 1)
    ∧ (∀ (g : G) (n : Nat), Quantifier.minLenMultiplier ⟨.nExact n, g⟩ = n)
    ∧ (∀ (g : G) (mn mx : Option Nat),
        Quantifier.minLenMultiplier ⟨.nTimes mn mx, g⟩ = mn.getD 0) := by
  refine ⟨by decide, by decide, by decide, by decide, by decide,
    fun g => ⟨rfl, rfl, rfl⟩, fun g n => rfl, fun g mn mx => rfl⟩

/-- Claim C6.  Flag serialization is neither canonically ordered nor
deterministic: the hand-written `Ord` impl compares `Locale`, `Multiline`,
`Dotall`, `Unicode`, `Verbose` as `Equal` to everything and both `Ascii`
and `Ignorecase` as `Greater` to each other, so building the flag set from
`Lm` silently drops `m` and renders `?L`, and the equal set built from `ai`
versus `ia` renders two different strings. -/
theorem flag_order_drops_and_misorders_flags :
    (Flags.fromChars ['L', 'm']).map Flags.asString = .ok "?L"
    ∧ (Flags.fromChars ['a', 'i']).map Flags.asString = .ok "?ai"
    ∧ (Flags.fromChars ['i', 'a']).map Flags.asString = .ok "?ia"
    ∧ Flag.cmp .ascii .ignorecase = .gt
    ∧ Flag.cmp .ignorecase .ascii = .gt
    ∧ Flag.cmp .multiline .locale = .eq := by
  refine ⟨rfl, rfl, rfl, rfl, rfl, rfl⟩

/-- Counterexample to claim C7: building a `CharSet` from the parse tree of
the malformed bracket expression `[z-a]` succeeds — the `char_range` arm of
`CharSet::from_pair` passes its bounds through `UnaryRange::new_unchecked`
with no order check — instead of failing with an invalid-ranges
condition. -/
theorem bracket_reversed_range_builds_ok :
    (CharSet.fromPair zaPair).isOk = true := by
  decide

/-- Claim C7 as amended.  Construction from an explicit list of `(low,
high)` pairs (`CharSet::from_ranges`) fails with the invalid-ranges
condition referencing the offending list whenever some pair has
`low > high`; the bracket-expression path performs no such check, and
`[z-a]` builds a set instead of failing. -/
theorem from_ranges_invalid_ranges_error :
    (∀ ranges : List (Char × Char),
      (ranges.all fun p => p.1 ≤ p.2) = false →
      CharSet.fromRanges ranges = .error (.invalidRanges ranges))
    ∧ (CharSet.fromPair zaPair).isOk = true := by
  refine ⟨?_, by decide⟩
  intro ranges h
  simp [CharSet.fromRanges, DisjointRange.fromBounds, h]

/-- Witness for claim C7's theorem at the reversed pair `(z, a)`. -/
theorem from_ranges_invalid_ranges_error_witness :
    CharSet.fromRanges [('z', 'a')] = .error (.invalidRanges [('z', 'a')]) :=
  from_ranges_invalid_ranges_error.1 [('z', 'a')] (by decide)

/-- Gap-walking used twice returns the original well-formed list: for every
range list that continues a chain from `b + 2`, taking the complement from
`b + 1` and complementing again from any `a ≤ b` prepends exactly
`(a, b)`. -/
theorem complAux_complAux (rest : List (Nat × Nat)) :
    ∀ a b, a ≤ b → b ≤ domMax → DisjointRange.chainB (b + 2) rest = true →
      DisjointRange.complAux a (DisjointRange.complAux (b + 1) rest) = (a, b) :: rest := by
  induction rest with
  | nil =>
    intro a b hab hbM _
    by_cases h : b + 1 ≤ domMax
    · have ha : a < b + 1 := Nat.lt_succ_of_le hab
      have hM : ¬ (domMax + 1 ≤ domMax) := by omega
      simp only [DisjointRange.complAux, if_pos h, if_pos ha, if_neg hM]
      have hb1 : b + 1 - 1 = b := by omega
      simp [hb1]
    · have hb : b = domMax := by omega
      simp only [DisjointRange.complAux, if_neg h]
      have ha : a ≤ domMax := by omega
      simp [DisjointRange.complAux, if_pos ha, hb]
  | cons hd tl ih =>
    intro a b hab hbM hch
    obtain ⟨c, d⟩ := hd
    simp only [DisjointRange.chainB, Bool.and_eq_true, decide_eq_true_eq] at hch
    obtain ⟨⟨⟨h1, h2⟩, h3⟩, h4⟩ := hch
    have hbc : b + 1 < c := by omega
    have hac : a < b + 1 := by omega
    have hc1 : c - 1 + 1 = c := by omega
    have hb1 : b + 1 - 1 = b := by omega
    simp only [DisjointRange.complAux, if_pos hbc, List.singleton_append,
      if_pos hac, hb1, hc1]
    have hih := ih c d h2 h3 h4
    simp [hih]

/-- Claim C8.  Complement involution: for every `DisjointRange` satisfying
the disjointness invariant (sorted, non-overlapping, non-adjacent ranges
within the character domain), complementing twice over the full domain
yields the original set of ranges. -/
theorem charset_complement_involution (r : DisjointRange)
    (h : DisjointRange.chainB 0 r.ranges = true) :
    r.complement.complement = r := by
  obtain ⟨S⟩ := r
  simp only [DisjointRange.complement, DisjointRange.mk.injEq]
  match S, h with
  | [], _ =>
    have hM : (0 : Nat) ≤ domMax := by omega
    simp [DisjointRange.complAux, if_pos hM]
  | (a, b) :: rest, h =>
    simp only [DisjointRange.chainB, Bool.and_eq_true, decide_eq_true_eq] at h
    obtain ⟨⟨⟨h1, h2⟩, h3⟩, h4⟩ := h
    by_cases ha : 0 < a
    · have ha1 : a - 1 + 1 = a := by omega
      simp only [DisjointRange.complAux, if_pos ha, List.singleton_append]
      simp only [DisjointRange.complAux, if_neg (Nat.lt_irrefl 0),
        List.nil_append, ha1]
      exact complAux_complAux rest a b h2 h3 h4
    · have ha0 : a = 0 := by omega
      simp only [DisjointRange.complAux, if_neg ha, List.nil_append]
      subst ha0
      exact complAux_complAux rest 0 b h2 h3 h4

/-- Witness for claim C8's theorem at a concrete two-range set. -/
theorem charset_complement_involution_witness :
    (DisjointRange.mk [(5, 10), (20, 30)]).complement.complement
      = DisjointRange.mk [(5, 10), (20, 30)] :=
  charset_complement_involution ⟨[(5, 10), (20, 30)]⟩ (by decide)

/-- Counterexample to claim C9: `Literal::min_match_len` is the UTF-8 byte
length of the run, not its character count — on the one-character literal
`é` (two bytes in UTF-8) it returns 2. -/
theorem literal_min_match_len_counts_bytes :
    Literal.minMatchLen ⟨"é"⟩ = 2 ∧ rustCharCount "é" = 1 := by
  refine ⟨by decide, by decide⟩

/-- Claim C9 as amended.  `min_match_len` of a literal equals the UTF-8
byte length of the run, which coincides with the number of characters
exactly when every character is ASCII (single-byte). -/
theorem literal_min_match_len_ascii_char_count (s : String)
    (h : ∀ c ∈ s.data, c.toNat < 128) :
    Literal.minMatchLen ⟨s⟩ = rustCharCount s := by
  have key : ∀ (l : List Char), (∀ c ∈ l, c.toNat < 128) →
      ∀ n : Nat, l.foldl (fun n c => n + charUtf8Size c) n = n + l.length := by
    intro l
    induction l with
    | nil => intro _ n; simp
    | cons c rest ih =>
      intro hl n
      have hc : c.toNat < 128 := hl c (List.mem_cons_self c rest)
      have hsz : charUtf8Size c = 1 := by
        simp [charUtf8Size, if_pos (show c.toNat < 0x80 from hc)]
      have hrest : ∀ x ∈ rest, x.toNat < 128 :=
        fun x hx => hl x (List.mem_cons_of_mem c hx)
      simp only [List.foldl_cons, hsz, List.length_cons, ih hrest]
      omega
  simpa [Literal.minMatchLen, rustStrLen, rustCharCount] using key s.data h 0

/-- Witness for claim C9's theorem at the ASCII literal `abc`. -/
theorem literal_min_match_len_ascii_char_count_witness :
    Literal.minMatchLen ⟨"abc"⟩ = rustCharCount "abc" :=
  literal_min_match_len_ascii_char_count "abc" (by decide)

/-- Claim C10.  A built `CharSet` holds only concrete ranges and
`as_string` prints every stored range as `low-high`: the set built from the
bracket expression `[a]` renders as `[a-a]`, the set desugared from `\d`
renders as `[0-9]`, and the original surface syntax is erased — `[a]` and
`[a-a]` build equal sets, as do `\d` and `[0-9]`. -/
theorem charset_stores_concrete_ranges_and_renders_low_high :
    (CharSet.fromPair aLitPair).toOption.map CharSet.asString = some "[a-a]"
    ∧ (CharSet.fromCClass .d).asString = "[0-9]"
    ∧ CharSet.fromPair aLitPair = CharSet.fromPair aaRangePair
    ∧ CharSet.fromPair digRangePair = .ok (CharSet.fromCClass .d) := by
  refine ⟨by decide, by decide, rfl, rfl⟩

end Reggie
